import Mathlib

/-!
# Verification of `create-icon.py`

A shallow embedding of the icon-generation script.  The script:

* creates a 180×180 RGB canvas filled with `'#00D4FF'`;
* tries to load `DejaVuSans-Bold.ttf` at size 100, falling back to
  `ImageFont.load_default()` on any failure;
* measures `draw.textbbox((0, 0), 'n', font=font)`;
* computes `position = ((180 - text_width) // 2, (180 - text_height) // 2)`;
* draws `'n'` in black at `position`;
* saves the image to a fixed output path and prints a confirmation line.

Font rasterisation is delegated to the imaging library, so it is modelled by
an environment `FontEnv` supplying, for every font and text, the anchored
bounding box returned by `textbbox` and the set of pixels the glyph covers
(its mask), both relative to the anchor origin.  Following the library's
documented anchor semantics, `draw.text(xy, t)` covers exactly the pixels
`xy + p` for `p` in the mask, and `textbbox(xy, t)` is the mask's bounding
box translated by `xy`.
-/

namespace CreateIcon

/-- Colors are the color-specification strings the script passes to the
imaging library (`'#00D4FF'`, `'black'`). -/
abbrev Color := String

/-- The canvas fill `'#00D4FF'` passed to `Image.new`. -/
def backgroundColor : Color := "#00D4FF"

/-- The glyph fill `'black'` passed to `draw.text`. -/
def fillColor : Color := "black"

/-- The drawn text: `text = 'n'`. -/
def glyphText : String := "n"

/-- The hardcoded truetype font path. -/
def fontPath : String := "/usr/share/fonts/truetype/dejavu/DejaVuSans-Bold.ttf"

/-- The hardcoded output path. -/
def outputPath : String := "/home/sol/n0de-deploy/frontend/public/apple-touch-icon.png"

/-- The success line printed after the save, naming the output path. -/
def confirmationLine : String := "Apple touch icon created at " ++ outputPath

/-- An in-memory raster image: a mode string, fixed dimensions, and the color
of each pixel (indexed by column `x`, row `y`). -/
structure Image where
  mode : String
  width : Nat
  height : Nat
  pixel : Nat → Nat → Color

/-- Model of `Image.new(mode, (w, h), c)`: a `w×h` image with every pixel set to `c`. -/
def Image.new (mode : String) (w h : Nat) (c : Color) : Image :=
  ⟨mode, w, h, fun _ _ => c⟩

/-- A resolved font: either a truetype font loaded from a path at a requested
pixel size (`ImageFont.truetype(path, size)`), or the built-in default font
(`ImageFont.load_default()`), which takes no size argument. -/
inductive Font where
  | truetype (path : String) (size : Nat)
  | defaultFont
deriving DecidableEq

/-- The size a font was requested at: `truetype` carries the requested size,
while the built-in default font has none (it renders at its own fixed size). -/
def Font.requestedSize : Font → Option Nat
  | .truetype _ s => some s
  | .defaultFont => none

/-- The anchored bounding box `(left, top, right, bottom)` that
`draw.textbbox` reports, relative to the anchor origin. -/
structure BBox where
  left : Int
  top : Int
  right : Int
  bottom : Int
deriving DecidableEq

/-- The imaging-library environment: whether the truetype load of the
hardcoded font path succeeds, and for each font and text the anchored
bounding box and the glyph mask (which pixels, relative to the anchor
origin, the rendered text covers). -/
structure FontEnv where
  truetypeOk : Bool
  bbox : Font → String → BBox
  mask : Font → String → Int → Int → Bool

/-- Model of the `try: font = ImageFont.truetype(...) except: font = ImageFont.load_default()`
block: the truetype font at size 100 when loading succeeds, the built-in
default font otherwise. -/
def loadFont (env : FontEnv) : Font :=
  if env.truetypeOk then Font.truetype fontPath 100 else Font.defaultFont

/-- Model of `draw.textbbox(xy, text, font=font)`: the font's anchored bounding box for
`text`, translated by the anchor position `xy`. -/
def textbbox (env : FontEnv) (xy : Int × Int) (text : String) (font : Font) : BBox :=
  let b := env.bbox font text
  ⟨xy.1 + b.left, xy.2 + b.top, xy.1 + b.right, xy.2 + b.bottom⟩

/-- Model of `draw.text(xy, text, fill=fill, font=font)`: every pixel covered by the
glyph mask translated to `xy` is set to `fill`; all other pixels keep their
previous color.  Dimensions and mode are untouched. -/
def drawText (env : FontEnv) (img : Image) (xy : Int × Int) (text : String)
    (fill : Color) (font : Font) : Image :=
  { img with pixel := fun x y =>
      if env.mask font text ((x : Int) - xy.1) ((y : Int) - xy.2) then fill
      else img.pixel x y }

/-- The script's canvas: `img = Image.new('RGB', (180, 180), '#00D4FF')`. -/
def canvas : Image := Image.new "RGB" 180 180 backgroundColor

/-- The script's `bbox = draw.textbbox((0, 0), text, font=font)`. -/
def resolvedBBox (env : FontEnv) : BBox :=
  textbbox env (0, 0) glyphText (loadFont env)

/-- The script's `text_width = bbox[2] - bbox[0]`. -/
def text_width (env : FontEnv) : Int :=
  (resolvedBBox env).right - (resolvedBBox env).left

/-- The script's `text_height = bbox[3] - bbox[1]`. -/
def text_height (env : FontEnv) : Int :=
  (resolvedBBox env).bottom - (resolvedBBox env).top

/-- The script's `position = ((180 - text_width) // 2, (180 - text_height) // 2)`;
Python `//` on integers is floor division, i.e. `Int.fdiv`. -/
def position (env : FontEnv) : Int × Int :=
  (((180 : Int) - text_width env).fdiv 2, ((180 : Int) - text_height env).fdiv 2)

/-- The in-memory image the script builds:
`draw.text(position, text, fill='black', font=font)` applied to the fresh
canvas. -/
def renderIcon (env : FontEnv) : Image :=
  drawText env canvas (position env) glyphText fillColor (loadFont env)

/-- A filesystem: decoded file contents by path, plus which paths are
writable. -/
structure FS where
  files : String → Option Image
  writable : String → Bool

/-- Model of `img.save(path)`: overwrite the file at `path` with the image when the
path is writable, otherwise raise an `IOError` (modelled as `Except.error`).
No other path is touched and writability is unchanged. -/
def FS.save (fs : FS) (img : Image) (path : String) : Except String FS :=
  if fs.writable path then
    Except.ok { fs with files := fun p => if p = path then some img else fs.files p }
  else
    Except.error "IOError"

/-- The whole script run against a filesystem: render the icon, save it to
the hardcoded output path, and on success print the single confirmation
line.  A save failure is not caught: it propagates as the script's result
and nothing is printed. -/
def runScript (env : FontEnv) (fs : FS) : Except String (FS × List String) :=
  let img := renderIcon env
  match fs.save img outputPath with
  | Except.ok fs2 => Except.ok (fs2, [confirmationLine])
  | Except.error e => Except.error e

/-! ## Measuring the drawn glyph in the final image -/

/-- Whether column `x` of the image contains a glyph pixel (a pixel holding
the glyph fill color). -/
def colHasGlyph (img : Image) (x : Nat) : Bool :=
  (List.range img.height).any fun y => img.pixel x y == fillColor

/-- Whether row `y` of the image contains a glyph pixel. -/
def rowHasGlyph (img : Image) (y : Nat) : Bool :=
  (List.range img.width).any fun x => img.pixel x y == fillColor

/-- First index satisfying `p`, scanning upward from `x` for `fuel` steps. -/
def findFrom (p : Nat → Bool) : Nat → Nat → Option Nat
  | _, 0 => none
  | x, fuel + 1 => if p x then some x else findFrom p (x + 1) fuel

/-- Last index satisfying `p`, scanning downward from `x` to `0`. -/
def findDown (p : Nat → Bool) : Nat → Option Nat
  | 0 => if p 0 then some 0 else none
  | x + 1 => if p (x + 1) then some (x + 1) else findDown p x

/-- Leftmost column of the image containing a glyph pixel. -/
def leftEdge (img : Image) : Option Nat := findFrom (colHasGlyph img) 0 img.width

/-- Rightmost column of the image containing a glyph pixel. -/
def rightEdge (img : Image) : Option Nat := findDown (colHasGlyph img) (img.width - 1)

/-- Topmost row of the image containing a glyph pixel. -/
def topEdge (img : Image) : Option Nat := findFrom (rowHasGlyph img) 0 img.height

/-- Bottommost row of the image containing a glyph pixel. -/
def bottomEdge (img : Image) : Option Nat := findDown (rowHasGlyph img) (img.height - 1)

theorem findFrom_eq_some (p : Nat → Bool) (k : Nat) :
    ∀ x fuel : Nat, x ≤ k → k < x + fuel → p k = true →
      (∀ j, x ≤ j → j < k → p j = false) → findFrom p x fuel = some k := by
  intro x fuel
  induction fuel generalizing x with
  | zero => intro _ h _ _; omega
  | succ n ih =>
    intro hxk hk hpk hbelow
    rcases Nat.eq_or_lt_of_le hxk with h | h
    · subst h
      simp [findFrom, hpk]
    · have hx : p x = false := hbelow x le_rfl h
      simp only [findFrom, hx, Bool.false_eq_true, if_false]
      exact ih (x + 1) h (by omega) hpk fun j h1 h2 => hbelow j (by omega) h2

theorem findDown_eq_some (p : Nat → Bool) (k : Nat) :
    ∀ x : Nat, k ≤ x → p k = true → (∀ j, k < j → j ≤ x → p j = false) →
      findDown p x = some k := by
  intro x
  induction x with
  | zero =>
    intro hk hpk _
    have : k = 0 := Nat.le_zero.mp hk
    subst this
    simp [findDown, hpk]
  | succ n ih =>
    intro hk hpk habove
    rcases Nat.eq_or_lt_of_le hk with h | h
    · subst h
      simp [findDown, hpk]
    · have hx : p (n + 1) = false := habove (n + 1) h le_rfl
      simp only [findDown, hx, Bool.false_eq_true, if_false]
      exact ih (by omega) hpk fun j h1 h2 => habove j h1 (by omega)

/-- A pixel of the rendered icon is glyph-colored exactly when the glyph
mask, translated to the draw position, covers it. -/
theorem renderIcon_pixel_glyph (env : FontEnv) (x y : Nat) :
    ((renderIcon env).pixel x y == fillColor) =
      env.mask (loadFont env) glyphText
        ((x : Int) - (position env).1) ((y : Int) - (position env).2) := by
  have hpx : (renderIcon env).pixel x y =
      if env.mask (loadFont env) glyphText ((x : Int) - (position env).1)
        ((y : Int) - (position env).2) then fillColor else backgroundColor := rfl
  rw [hpx]
  split
  · next h => simp [h]
  · next h =>
      simp only [Bool.not_eq_true] at h
      rw [h]
      decide

theorem colHasGlyph_renderIcon (env : FontEnv) (x : Nat) :
    colHasGlyph (renderIcon env) x = true ↔
      ∃ y : Nat, y < 180 ∧ env.mask (loadFont env) glyphText
        ((x : Int) - (position env).1) ((y : Int) - (position env).2) = true := by
  show (List.range 180).any _ = true ↔ _
  rw [List.any_eq_true]
  constructor
  · rintro ⟨y, hy, hpy⟩
    exact ⟨y, List.mem_range.mp hy, by rwa [renderIcon_pixel_glyph] at hpy⟩
  · rintro ⟨y, hy, hmy⟩
    exact ⟨y, List.mem_range.mpr hy, by rwa [renderIcon_pixel_glyph]⟩

theorem rowHasGlyph_renderIcon (env : FontEnv) (y : Nat) :
    rowHasGlyph (renderIcon env) y = true ↔
      ∃ x : Nat, x < 180 ∧ env.mask (loadFont env) glyphText
        ((x : Int) - (position env).1) ((y : Int) - (position env).2) = true := by
  show (List.range 180).any _ = true ↔ _
  rw [List.any_eq_true]
  constructor
  · rintro ⟨x, hx, hpx⟩
    exact ⟨x, List.mem_range.mp hx, by rwa [renderIcon_pixel_glyph] at hpx⟩
  · rintro ⟨x, hx, hmx⟩
    exact ⟨x, List.mem_range.mpr hx, by rwa [renderIcon_pixel_glyph]⟩

/-! ## Characterizing a whole run, and concrete test environments -/

/-- One closed form for a whole run: a writable output path yields the saved
image plus the single confirmation line; an unwritable one yields the
uncaught `IOError`. -/
theorem runScript_eq (env : FontEnv) (fs : FS) :
    runScript env fs =
      if fs.writable outputPath then
        Except.ok
          ({ fs with files := fun p =>
              if p = outputPath then some (renderIcon env) else fs.files p },
            [confirmationLine])
      else Except.error "IOError" := by
  by_cases hw : fs.writable outputPath
  · simp [runScript, FS.save, hw]
  · simp [runScript, FS.save, hw]

/-- Rectangular glyph mask covering `[l, r) × [t, b)`. -/
def rectMask (l t r b : Int) : Int → Int → Bool := fun px py =>
  decide (l ≤ px) && decide (px < r) && decide (t ≤ py) && decide (py < b)

/-- An environment where the truetype load succeeds and the glyph's anchored
bounding box starts exactly at the anchor origin. -/
def envA : FontEnv where
  truetypeOk := true
  bbox := fun _ _ => ⟨0, 0, 100, 100⟩
  mask := fun _ _ => rectMask 0 0 100 100

/-- An environment where the truetype load fails, with small default-font
metrics. -/
def envF : FontEnv where
  truetypeOk := false
  bbox := fun _ _ => ⟨0, 0, 8, 8⟩
  mask := fun _ _ => rectMask 0 0 8 8

/-- Like `envA` but reporting different metrics for the (unused) default
font: the resolved truetype font sees identical metrics. -/
def envB : FontEnv where
  truetypeOk := true
  bbox := fun f _ => if f = Font.defaultFont then ⟨1, 2, 3, 4⟩ else ⟨0, 0, 100, 100⟩
  mask := fun _ _ => rectMask 0 0 100 100

/-- An empty, fully writable filesystem. -/
def fsEmpty : FS where
  files := fun _ => none
  writable := fun _ => true

/-- A filesystem where no path is writable. -/
def fsReadOnly : FS where
  files := fun _ => none
  writable := fun _ => false

/-- Helper: where the leftmost glyph column of the rendered icon lies, for a
mask confined to `[l, r) × [t, bo)` and attaining its left edge. -/
theorem leftEdge_spec (env : FontEnv) (l t r bo : Int)
    (hsub : ∀ px py : Int, env.mask (loadFont env) glyphText px py = true →
      l ≤ px ∧ px < r ∧ t ≤ py ∧ py < bo)
    (hatt : ∃ py, env.mask (loadFont env) glyphText l py = true)
    (hposx : 0 ≤ (position env).1 + l) (hr : (position env).1 + r ≤ 180)
    (hlr : l < r)
    (hposy : 0 ≤ (position env).2 + t) (hb : (position env).2 + bo ≤ 180) :
    leftEdge (renderIcon env) = some ((position env).1 + l).toNat := by
  obtain ⟨py0, hpy0⟩ := hatt
  have hpy0b := hsub _ _ hpy0
  have hLint : ((((position env).1 + l).toNat : Int)) = (position env).1 + l :=
    Int.toNat_of_nonneg hposx
  have hcol : colHasGlyph (renderIcon env) ((position env).1 + l).toNat = true := by
    rw [colHasGlyph_renderIcon]
    refine ⟨((position env).2 + py0).toNat, by omega, ?_⟩
    have e1 : ((((position env).1 + l).toNat : Int)) - (position env).1 = l := by omega
    have e2 : ((((position env).2 + py0).toNat : Int)) - (position env).2 = py0 := by
      omega
    rw [e1, e2]
    exact hpy0
  have hbelow : ∀ j : Nat, 0 ≤ j → j < ((position env).1 + l).toNat →
      colHasGlyph (renderIcon env) j = false := by
    intro j _ hj
    by_contra hc
    rw [Bool.not_eq_false] at hc
    obtain ⟨y, hy, hm⟩ := (colHasGlyph_renderIcon env j).mp hc
    have := (hsub _ _ hm).1
    omega
  show findFrom (colHasGlyph (renderIcon env)) 0 180 =
    some ((position env).1 + l).toNat
  exact findFrom_eq_some _ _ 0 180 (Nat.zero_le _) (by omega) hcol hbelow

/-- Helper: where the rightmost glyph column of the rendered icon lies. -/
theorem rightEdge_spec (env : FontEnv) (l t r bo : Int)
    (hsub : ∀ px py : Int, env.mask (loadFont env) glyphText px py = true →
      l ≤ px ∧ px < r ∧ t ≤ py ∧ py < bo)
    (hatt : ∃ py, env.mask (loadFont env) glyphText (r - 1) py = true)
    (hposx : 0 ≤ (position env).1 + l) (hr : (position env).1 + r ≤ 180)
    (hlr : l < r)
    (hposy : 0 ≤ (position env).2 + t) (hb : (position env).2 + bo ≤ 180) :
    rightEdge (renderIcon env) = some ((position env).1 + r - 1).toNat := by
  obtain ⟨py1, hpy1⟩ := hatt
  have hpy1b := hsub _ _ hpy1
  have hRint : ((((position env).1 + r - 1).toNat : Int)) = (position env).1 + r - 1 :=
    Int.toNat_of_nonneg (by omega)
  have hcol : colHasGlyph (renderIcon env) ((position env).1 + r - 1).toNat = true := by
    rw [colHasGlyph_renderIcon]
    refine ⟨((position env).2 + py1).toNat, by omega, ?_⟩
    have e1 : ((((position env).1 + r - 1).toNat : Int)) - (position env).1 = r - 1 := by
      omega
    have e2 : ((((position env).2 + py1).toNat : Int)) - (position env).2 = py1 := by
      omega
    rw [e1, e2]
    exact hpy1
  have habove : ∀ j : Nat, ((position env).1 + r - 1).toNat < j → j ≤ 179 →
      colHasGlyph (renderIcon env) j = false := by
    intro j hj _
    by_contra hc
    rw [Bool.not_eq_false] at hc
    obtain ⟨y, hy, hm⟩ := (colHasGlyph_renderIcon env j).mp hc
    have := (hsub _ _ hm).2.1
    omega
  show findDown (colHasGlyph (renderIcon env)) 179 =
    some ((position env).1 + r - 1).toNat
  exact findDown_eq_some _ _ 179 (by omega) hcol habove

/-- Helper: where the topmost glyph row of the rendered icon lies. -/
theorem topEdge_spec (env : FontEnv) (l t r bo : Int)
    (hsub : ∀ px py : Int, env.mask (loadFont env) glyphText px py = true →
      l ≤ px ∧ px < r ∧ t ≤ py ∧ py < bo)
    (hatt : ∃ px, env.mask (loadFont env) glyphText px t = true)
    (hposx : 0 ≤ (position env).1 + l) (hr : (position env).1 + r ≤ 180)
    (htb : t < bo)
    (hposy : 0 ≤ (position env).2 + t) (hb : (position env).2 + bo ≤ 180) :
    topEdge (renderIcon env) = some ((position env).2 + t).toNat := by
  obtain ⟨px0, hpx0⟩ := hatt
  have hpx0b := hsub _ _ hpx0
  have hTint : ((((position env).2 + t).toNat : Int)) = (position env).2 + t :=
    Int.toNat_of_nonneg hposy
  have hrow : rowHasGlyph (renderIcon env) ((position env).2 + t).toNat = true := by
    rw [rowHasGlyph_renderIcon]
    refine ⟨((position env).1 + px0).toNat, by omega, ?_⟩
    have e1 : ((((position env).1 + px0).toNat : Int)) - (position env).1 = px0 := by
      omega
    have e2 : ((((position env).2 + t).toNat : Int)) - (position env).2 = t := by omega
    rw [e1, e2]
    exact hpx0
  have hbelow : ∀ j : Nat, 0 ≤ j → j < ((position env).2 + t).toNat →
      rowHasGlyph (renderIcon env) j = false := by
    intro j _ hj
    by_contra hc
    rw [Bool.not_eq_false] at hc
    obtain ⟨x, hx, hm⟩ := (rowHasGlyph_renderIcon env j).mp hc
    have := (hsub _ _ hm).2.2.1
    omega
  show findFrom (rowHasGlyph (renderIcon env)) 0 180 =
    some ((position env).2 + t).toNat
  exact findFrom_eq_some _ _ 0 180 (Nat.zero_le _) (by omega) hrow hbelow

/-- Helper: where the bottommost glyph row of the rendered icon lies. -/
theorem bottomEdge_spec (env : FontEnv) (l t r bo : Int)
    (hsub : ∀ px py : Int, env.mask (loadFont env) glyphText px py = true →
      l ≤ px ∧ px < r ∧ t ≤ py ∧ py < bo)
    (hatt : ∃ px, env.mask (loadFont env) glyphText px (bo - 1) = true)
    (hposx : 0 ≤ (position env).1 + l) (hr : (position env).1 + r ≤ 180)
    (htb : t < bo)
    (hposy : 0 ≤ (position env).2 + t) (hb : (position env).2 + bo ≤ 180) :
    bottomEdge (renderIcon env) = some ((position env).2 + bo - 1).toNat := by
  obtain ⟨px1, hpx1⟩ := hatt
  have hpx1b := hsub _ _ hpx1
  have hBint : ((((position env).2 + bo - 1).toNat : Int)) = (position env).2 + bo - 1 :=
    Int.toNat_of_nonneg (by omega)
  have hrow : rowHasGlyph (renderIcon env) ((position env).2 + bo - 1).toNat = true := by
    rw [rowHasGlyph_renderIcon]
    refine ⟨((position env).1 + px1).toNat, by omega, ?_⟩
    have e1 : ((((position env).1 + px1).toNat : Int)) - (position env).1 = px1 := by
      omega
    have e2 : ((((position env).2 + bo - 1).toNat : Int)) - (position env).2 = bo - 1 := by
      omega
    rw [e1, e2]
    exact hpx1
  have habove : ∀ j : Nat, ((position env).2 + bo - 1).toNat < j → j ≤ 179 →
      rowHasGlyph (renderIcon env) j = false := by
    intro j hj _
    by_contra hc
    rw [Bool.not_eq_false] at hc
    obtain ⟨x, hx, hm⟩ := (rowHasGlyph_renderIcon env j).mp hc
    have := (hsub _ _ hm).2.2.2
    omega
  show findDown (rowHasGlyph (renderIcon env)) 179 =
    some ((position env).2 + bo - 1).toNat
  exact findDown_eq_some _ _ 179 (by omega) hrow habove

/-! ## Claims -/

/-- An environment whose glyph bounding box is anchored at the nonzero
offset `(10, 20)` — real truetype glyphs likewise report a nonzero left
bearing and ascender gap — with the mask filling the whole box. -/
def ceEnv : FontEnv where
  truetypeOk := true
  bbox := fun _ _ => ⟨10, 20, 110, 120⟩
  mask := fun _ _ => rectMask 10 20 110 120

/-- C1 counterexample: for `ceEnv` the script puts the text origin at
`position = (40, 30)`, so the drawn 100×100 box spans columns 50–149: the
measured left margin is 50 pixels but the right margin is only 30, which is
not centered within ±1 pixel.  The claim fails for every font whose
bounding box has a nonzero anchor offset, because the code centers the
box's size while anchoring the text origin, shifting the drawn box by
`(left, top)`. -/
theorem C1_centering_counterexample :
    leftEdge (renderIcon ceEnv) = some 50 ∧
    rightEdge (renderIcon ceEnv) = some 149 ∧
    ¬ (-1 ≤ (50 : Int) - (179 - 149) ∧ (50 : Int) - (179 - 149) ≤ 1) :=
  ⟨by decide, by decide, by decide⟩

/-- C1 (amended): for a glyph mask that is confined to the measured bounding
box and attains all four of its edges, and a box that fits the canvas, the
measured margins of the drawn glyph satisfy exactly
`leftMargin - rightMargin = 2·left - (180 - text_width) % 2` and
`topMargin - bottomMargin = 2·top - (180 - text_height) % 2`; the claimed
±1-pixel centering therefore holds precisely when the bounding box's
anchor offsets `left` and `top` are zero, not for every font. -/
theorem C1_centering_characterized (env : FontEnv)
    (hl0 : 0 ≤ (resolvedBBox env).left)
    (hlr : (resolvedBBox env).left < (resolvedBBox env).right)
    (hr180 : (resolvedBBox env).right + (resolvedBBox env).left ≤ 180)
    (ht0 : 0 ≤ (resolvedBBox env).top)
    (htb : (resolvedBBox env).top < (resolvedBBox env).bottom)
    (hb180 : (resolvedBBox env).bottom + (resolvedBBox env).top ≤ 180)
    (hsub : ∀ px py : Int, env.mask (loadFont env) glyphText px py = true →
      (resolvedBBox env).left ≤ px ∧ px < (resolvedBBox env).right ∧
      (resolvedBBox env).top ≤ py ∧ py < (resolvedBBox env).bottom)
    (hattL : ∃ py, env.mask (loadFont env) glyphText (resolvedBBox env).left py = true)
    (hattR : ∃ py, env.mask (loadFont env) glyphText
      ((resolvedBBox env).right - 1) py = true)
    (hattT : ∃ px, env.mask (loadFont env) glyphText px (resolvedBBox env).top = true)
    (hattB : ∃ px, env.mask (loadFont env) glyphText px
      ((resolvedBBox env).bottom - 1) = true) :
    ∃ L R T B : Nat,
      leftEdge (renderIcon env) = some L ∧
      rightEdge (renderIcon env) = some R ∧
      topEdge (renderIcon env) = some T ∧
      bottomEdge (renderIcon env) = some B ∧
      (L : Int) = (position env).1 + (resolvedBBox env).left ∧
      (R : Int) = (position env).1 + (resolvedBBox env).right - 1 ∧
      (T : Int) = (position env).2 + (resolvedBBox env).top ∧
      (B : Int) = (position env).2 + (resolvedBBox env).bottom - 1 ∧
      (L : Int) - (179 - (R : Int)) =
        2 * (resolvedBBox env).left - ((180 : Int) - text_width env) % 2 ∧
      (T : Int) - (179 - (B : Int)) =
        2 * (resolvedBBox env).top - ((180 : Int) - text_height env) % 2 ∧
      ((resolvedBBox env).left = 0 →
        -1 ≤ (L : Int) - (179 - (R : Int)) ∧ (L : Int) - (179 - (R : Int)) ≤ 1) ∧
      ((resolvedBBox env).top = 0 →
        -1 ≤ (T : Int) - (179 - (B : Int)) ∧ (T : Int) - (179 - (B : Int)) ≤ 1) := by
  have hpos1 : (position env).1 = ((180 : Int) - text_width env) / 2 := by
    show ((180 : Int) - text_width env).fdiv 2 = ((180 : Int) - text_width env) / 2
    exact Int.fdiv_eq_ediv _ (by norm_num)
  have hpos2 : (position env).2 = ((180 : Int) - text_height env) / 2 := by
    show ((180 : Int) - text_height env).fdiv 2 = ((180 : Int) - text_height env) / 2
    exact Int.fdiv_eq_ediv _ (by norm_num)
  have htw : text_width env = (resolvedBBox env).right - (resolvedBBox env).left := rfl
  have hth : text_height env = (resolvedBBox env).bottom - (resolvedBBox env).top := rfl
  have hposx : 0 ≤ (position env).1 + (resolvedBBox env).left := by omega
  have hposr : (position env).1 + (resolvedBBox env).right ≤ 180 := by omega
  have hposy : 0 ≤ (position env).2 + (resolvedBBox env).top := by omega
  have hposb : (position env).2 + (resolvedBBox env).bottom ≤ 180 := by omega
  refine ⟨((position env).1 + (resolvedBBox env).left).toNat,
    ((position env).1 + (resolvedBBox env).right - 1).toNat,
    ((position env).2 + (resolvedBBox env).top).toNat,
    ((position env).2 + (resolvedBBox env).bottom - 1).toNat,
    leftEdge_spec env _ _ _ _ hsub hattL hposx hposr hlr hposy hposb,
    rightEdge_spec env _ _ _ _ hsub hattR hposx hposr hlr hposy hposb,
    topEdge_spec env _ _ _ _ hsub hattT hposx hposr htb hposy hposb,
    bottomEdge_spec env _ _ _ _ hsub hattB hposx hposr htb hposy hposb,
    by omega, by omega, by omega, by omega, by omega, by omega,
    fun h0 => by omega, fun h0 => by omega⟩

/-- C1 (amended) witness: an environment whose bounding box is anchored at
the origin, where the measured margins are 40 and 40 both ways. -/
theorem C1_centering_characterized_witness :
    ∃ L R T B : Nat,
      leftEdge (renderIcon envA) = some L ∧
      rightEdge (renderIcon envA) = some R ∧
      topEdge (renderIcon envA) = some T ∧
      bottomEdge (renderIcon envA) = some B ∧
      (L : Int) = (position envA).1 + (resolvedBBox envA).left ∧
      (R : Int) = (position envA).1 + (resolvedBBox envA).right - 1 ∧
      (T : Int) = (position envA).2 + (resolvedBBox envA).top ∧
      (B : Int) = (position envA).2 + (resolvedBBox envA).bottom - 1 ∧
      (L : Int) - (179 - (R : Int)) =
        2 * (resolvedBBox envA).left - ((180 : Int) - text_width envA) % 2 ∧
      (T : Int) - (179 - (B : Int)) =
        2 * (resolvedBBox envA).top - ((180 : Int) - text_height envA) % 2 ∧
      ((resolvedBBox envA).left = 0 →
        -1 ≤ (L : Int) - (179 - (R : Int)) ∧ (L : Int) - (179 - (R : Int)) ≤ 1) ∧
      ((resolvedBBox envA).top = 0 →
        -1 ≤ (T : Int) - (179 - (B : Int)) ∧ (T : Int) - (179 - (B : Int)) ≤ 1) :=
  C1_centering_characterized envA (by decide) (by decide) (by decide) (by decide)
    (by decide) (by decide)
    (by
      intro px py h
      have hb : (resolvedBBox envA) = ⟨0, 0, 100, 100⟩ := by decide
      rw [hb]
      simp only [envA, rectMask, Bool.and_eq_true, decide_eq_true_eq] at h
      exact ⟨h.1.1.1, h.1.1.2, h.1.2, h.2⟩)
    ⟨0, by decide⟩ ⟨0, by decide⟩ ⟨0, by decide⟩ ⟨0, by decide⟩

/-- C2: if loading the font at the given font path fails for any reason,
the script substitutes the built-in default font, surfaces no failure, and
still succeeds in producing a valid 180×180 RGB image saved at the output
path; font-loading failure is never an error result. -/
theorem C2_font_fallback (env : FontEnv) (fs : FS)
    (hfail : env.truetypeOk = false) (hw : fs.writable outputPath = true) :
    loadFont env = Font.defaultFont ∧
    ∃ fs2 : FS, runScript env fs = Except.ok (fs2, [confirmationLine]) ∧
      fs2.files outputPath = some (renderIcon env) ∧
      (renderIcon env).width = 180 ∧ (renderIcon env).height = 180 ∧
      (renderIcon env).mode = "RGB" := by
  refine ⟨by simp [loadFont, hfail], ?_⟩
  refine ⟨{ fs with files := fun p =>
      if p = outputPath then some (renderIcon env) else fs.files p },
    ?_, by simp, rfl, rfl, rfl⟩
  rw [runScript_eq, if_pos hw]

/-- C2 witness: a concrete failing font load on a writable filesystem. -/
theorem C2_font_fallback_witness :
    envF.truetypeOk = false ∧ fsEmpty.writable outputPath = true ∧
    (loadFont envF = Font.defaultFont ∧
      ∃ fs2 : FS, runScript envF fsEmpty = Except.ok (fs2, [confirmationLine]) ∧
        fs2.files outputPath = some (renderIcon envF) ∧
        (renderIcon envF).width = 180 ∧ (renderIcon envF).height = 180 ∧
        (renderIcon envF).mode = "RGB") :=
  ⟨rfl, rfl, C2_font_fallback envF fsEmpty rfl rfl⟩

/-- C3: for every font environment the rendered image is exactly 180×180
(in RGB mode), and the dimensions fixed at creation are never changed by
the drawing operation. -/
theorem C3_dimension_invariant (env : FontEnv) (img : Image) (xy : Int × Int)
    (t : String) (c : Color) (f : Font) :
    (renderIcon env).width = 180 ∧ (renderIcon env).height = 180 ∧
    (renderIcon env).mode = "RGB" ∧
    canvas.width = 180 ∧ canvas.height = 180 ∧
    (drawText env img xy t c f).width = img.width ∧
    (drawText env img xy t c f).height = img.height ∧
    (drawText env img xy t c f).mode = img.mode :=
  ⟨rfl, rfl, rfl, rfl, rfl, rfl, rfl, rfl⟩

/-- Helper: `Int.fdiv` by 2 — the semantics of Python `//` — is the floor of
the exact quotient. -/
theorem fdiv_two_eq_floor (n : Int) : n.fdiv 2 = ⌊(n : ℚ) / 2⌋ := by
  rw [Int.fdiv_eq_ediv _ (by norm_num)]
  rw [show ((2 : ℚ)) = ((2 : ℕ) : ℚ) by norm_num]
  rw [Rat.floor_intCast_div_natCast]
  norm_num

/-- C4: the top-left draw position is computed exactly as
`((size - text_width) / 2, (size - text_height) / 2)` with integer floor
division, where `text_width` and `text_height` are the width and height of
the measured bounding box and `size = 180`. -/
theorem C4_position_formula (env : FontEnv) :
    text_width env = (resolvedBBox env).right - (resolvedBBox env).left ∧
    text_height env = (resolvedBBox env).bottom - (resolvedBBox env).top ∧
    position env = (((180 : Int) - text_width env).fdiv 2,
      ((180 : Int) - text_height env).fdiv 2) ∧
    position env = (⌊((180 : ℚ) - (text_width env : ℚ)) / 2⌋,
      ⌊((180 : ℚ) - (text_height env : ℚ)) / 2⌋) := by
  refine ⟨rfl, rfl, rfl, ?_⟩
  have hw : ((180 : ℚ) - (text_width env : ℚ)) =
      (((180 : Int) - text_width env : Int) : ℚ) := by push_cast; ring
  have hh : ((180 : ℚ) - (text_height env : ℚ)) =
      (((180 : Int) - text_height env : Int) : ℚ) := by push_cast; ring
  rw [position, hw, hh, ← fdiv_two_eq_floor, ← fdiv_two_eq_floor]

/-- C5: with size 180, background `'#00D4FF'`, glyph `'n'`, a successfully
loaded bold font at size 100 and a writable output path, the produced image
is a 180×180 RGB raster whose background pixels are `'#00D4FF'` and whose
glyph pixels are black, and the saved file decodes with dimensions
`(180, 180)`. -/
theorem C5_end_to_end (env : FontEnv) (fs : FS)
    (hok : env.truetypeOk = true) (hw : fs.writable outputPath = true) :
    loadFont env = Font.truetype fontPath 100 ∧
    (renderIcon env).mode = "RGB" ∧
    (renderIcon env).width = 180 ∧ (renderIcon env).height = 180 ∧
    (∀ x y : Nat,
      env.mask (loadFont env) glyphText ((x : Int) - (position env).1)
        ((y : Int) - (position env).2) = true →
      (renderIcon env).pixel x y = fillColor) ∧
    (∀ x y : Nat,
      env.mask (loadFont env) glyphText ((x : Int) - (position env).1)
        ((y : Int) - (position env).2) = false →
      (renderIcon env).pixel x y = backgroundColor) ∧
    ∃ fs2 : FS, runScript env fs = Except.ok (fs2, [confirmationLine]) ∧
      ∃ saved : Image, fs2.files outputPath = some saved ∧
        saved.width = 180 ∧ saved.height = 180 ∧ saved.mode = "RGB" := by
  refine ⟨by simp [loadFont, hok], rfl, rfl, rfl, ?_, ?_, ?_⟩
  · intro x y hm
    have hpx : (renderIcon env).pixel x y =
        if env.mask (loadFont env) glyphText ((x : Int) - (position env).1)
          ((y : Int) - (position env).2) then fillColor else backgroundColor := rfl
    simp [hpx, hm]
  · intro x y hm
    have hpx : (renderIcon env).pixel x y =
        if env.mask (loadFont env) glyphText ((x : Int) - (position env).1)
          ((y : Int) - (position env).2) then fillColor else backgroundColor := rfl
    simp [hpx, hm]
  · refine ⟨{ fs with files := fun p =>
        if p = outputPath then some (renderIcon env) else fs.files p },
      ?_, renderIcon env, by simp, rfl, rfl, rfl⟩
    rw [runScript_eq, if_pos hw]

/-- C5 witness: the concrete successful environment on an empty writable
filesystem. -/
theorem C5_end_to_end_witness :
    envA.truetypeOk = true ∧ fsEmpty.writable outputPath = true ∧
    (loadFont envA = Font.truetype fontPath 100 ∧
      (renderIcon envA).mode = "RGB" ∧
      (renderIcon envA).width = 180 ∧ (renderIcon envA).height = 180 ∧
      (∀ x y : Nat,
        envA.mask (loadFont envA) glyphText ((x : Int) - (position envA).1)
          ((y : Int) - (position envA).2) = true →
        (renderIcon envA).pixel x y = fillColor) ∧
      (∀ x y : Nat,
        envA.mask (loadFont envA) glyphText ((x : Int) - (position envA).1)
          ((y : Int) - (position envA).2) = false →
        (renderIcon envA).pixel x y = backgroundColor) ∧
      ∃ fs2 : FS, runScript envA fsEmpty = Except.ok (fs2, [confirmationLine]) ∧
        ∃ saved : Image, fs2.files outputPath = some saved ∧
          saved.width = 180 ∧ saved.height = 180 ∧ saved.mode = "RGB") :=
  ⟨rfl, rfl, C5_end_to_end envA fsEmpty rfl rfl⟩

/-- C6: a failure of the final write is not caught — the run's result is the
propagated `IOError` and the confirmation line is not printed — while on a
successful save the confirmation line is printed exactly once, after the
save. -/
theorem C6_write_failure (env : FontEnv) (fsro fsrw : FS)
    (hro : fsro.writable outputPath = false) (hrw : fsrw.writable outputPath = true) :
    runScript env fsro = Except.error "IOError" ∧
    ∃ fs2 : FS, runScript env fsrw = Except.ok (fs2, [confirmationLine]) ∧
      fs2.files outputPath = some (renderIcon env) := by
  constructor
  · rw [runScript_eq, if_neg (by simp [hro])]
  · refine ⟨{ fsrw with files := fun p =>
        if p = outputPath then some (renderIcon env) else fsrw.files p },
      ?_, by simp⟩
    rw [runScript_eq, if_pos hrw]

/-- C6 witness: concrete read-only and writable filesystems. -/
theorem C6_write_failure_witness :
    fsReadOnly.writable outputPath = false ∧ fsEmpty.writable outputPath = true ∧
    (runScript envA fsReadOnly = Except.error "IOError" ∧
      ∃ fs2 : FS, runScript envA fsEmpty = Except.ok (fs2, [confirmationLine]) ∧
        fs2.files outputPath = some (renderIcon envA)) :=
  ⟨rfl, rfl, C6_write_failure envA fsReadOnly fsEmpty rfl rfl⟩

/-- C7: rendering is deterministic — two runs whose resolved font and whose
metrics (bounding box and mask) for the drawn text agree produce images
with identical dimensions, mode, and every pixel, in particular identical
background pixels. -/
theorem C7_determinism (env1 env2 : FontEnv)
    (_hfont : loadFont env1 = loadFont env2)
    (hbb : env1.bbox (loadFont env1) glyphText = env2.bbox (loadFont env2) glyphText)
    (hmask : env1.mask (loadFont env1) glyphText = env2.mask (loadFont env2) glyphText) :
    (renderIcon env1).width = (renderIcon env2).width ∧
    (renderIcon env1).height = (renderIcon env2).height ∧
    (renderIcon env1).mode = (renderIcon env2).mode ∧
    ∀ x y : Nat, (renderIcon env1).pixel x y = (renderIcon env2).pixel x y := by
  have hres : resolvedBBox env1 = resolvedBBox env2 := by
    simp only [resolvedBBox, textbbox]
    rw [hbb]
  have hpos : position env1 = position env2 := by
    simp [position, text_width, text_height, hres]
  refine ⟨rfl, rfl, rfl, fun x y => ?_⟩
  show (if env1.mask (loadFont env1) glyphText
          ((x : Int) - (position env1).1) ((y : Int) - (position env1).2)
        then fillColor else backgroundColor) =
      (if env2.mask (loadFont env2) glyphText
          ((x : Int) - (position env2).1) ((y : Int) - (position env2).2)
        then fillColor else backgroundColor)
  rw [hmask, hpos]

/-- C7 witness: two concrete environments differing only in the metrics of
the unused default font. -/
theorem C7_determinism_witness :
    loadFont envA = loadFont envB ∧
    ((renderIcon envA).width = (renderIcon envB).width ∧
      (renderIcon envA).height = (renderIcon envB).height ∧
      (renderIcon envA).mode = (renderIcon envB).mode ∧
      ∀ x y : Nat, (renderIcon envA).pixel x y = (renderIcon envB).pixel x y) :=
  ⟨rfl, C7_determinism envA envB rfl (by decide) rfl⟩

/-- C8: on a writable path, one run saves the icon at the output path with a
confirmation; a second run against the resulting filesystem returns exactly
the same filesystem and confirmation — the save overwrites without backup,
so running twice is equivalent to running once, the content at the path
being the (identical) second run's image; no other path is touched. -/
theorem C8_overwrite (env : FontEnv) (fs : FS)
    (hw : fs.writable outputPath = true) :
    ∃ fs1 : FS, runScript env fs = Except.ok (fs1, [confirmationLine]) ∧
      runScript env fs1 = Except.ok (fs1, [confirmationLine]) ∧
      fs1.files outputPath = some (renderIcon env) ∧
      ∀ p : String, p ≠ outputPath → fs1.files p = fs.files p := by
  refine ⟨{ fs with files := fun p =>
      if p = outputPath then some (renderIcon env) else fs.files p },
    ?_, ?_, by simp, fun p hp => by simp [hp]⟩
  · rw [runScript_eq, if_pos hw]
  · rw [runScript_eq, if_pos hw]
    congr 1
    refine Prod.ext ?_ rfl
    show FS.mk _ _ = FS.mk _ _
    congr 1
    funext p
    by_cases hp : p = outputPath <;> simp [hp]

/-- C8 witness: a concrete double run on an initially empty filesystem. -/
theorem C8_overwrite_witness :
    fsEmpty.writable outputPath = true ∧
    ∃ fs1 : FS, runScript envA fsEmpty = Except.ok (fs1, [confirmationLine]) ∧
      runScript envA fs1 = Except.ok (fs1, [confirmationLine]) ∧
      fs1.files outputPath = some (renderIcon envA) ∧
      ∀ p : String, p ≠ outputPath → fs1.files p = fsEmpty.files p :=
  ⟨rfl, C8_overwrite envA fsEmpty rfl⟩

/-- C9: drawing the glyph modifies only pixels covered by the rendered glyph
mask — every pixel the translated mask does not cover still holds the
background color `'#00D4FF'` in the final image. -/
theorem C9_frame (env : FontEnv) (x y : Nat)
    (hout : env.mask (loadFont env) glyphText
      ((x : Int) - (position env).1) ((y : Int) - (position env).2) = false) :
    (renderIcon env).pixel x y = backgroundColor := by
  have hpx : (renderIcon env).pixel x y =
      if env.mask (loadFont env) glyphText ((x : Int) - (position env).1)
        ((y : Int) - (position env).2) then fillColor else backgroundColor := rfl
  simp [hpx, hout]

/-- C9 witness: a concrete pixel outside the glyph keeps the background. -/
theorem C9_frame_witness :
    envA.mask (loadFont envA) glyphText
      ((179 : Int) - (position envA).1) ((179 : Int) - (position envA).2) = false ∧
    (renderIcon envA).pixel 179 179 = backgroundColor :=
  ⟨by decide, C9_frame envA 179 179 (by decide)⟩

/-- C10: when the fallback branch is taken the requested size 100 is not
applied — the resolved font is the built-in default font, which carries no
requested size at all (it renders at its own fixed built-in size). -/
theorem C10_fallback_ignores_size (env : FontEnv)
    (hfail : env.truetypeOk = false) :
    loadFont env = Font.defaultFont ∧
    (loadFont env).requestedSize = none ∧
    (loadFont env).requestedSize ≠ some 100 := by
  have h : loadFont env = Font.defaultFont := by simp [loadFont, hfail]
  exact ⟨h, by rw [h]; rfl, by rw [h]; simp [Font.requestedSize]⟩

/-- C10 witness: the concrete failing-load environment. -/
theorem C10_fallback_ignores_size_witness :
    envF.truetypeOk = false ∧
    (loadFont envF = Font.defaultFont ∧
      (loadFont envF).requestedSize = none ∧
      (loadFont envF).requestedSize ≠ some 100) :=
  ⟨rfl, C10_fallback_ignores_size envF rfl⟩

end CreateIcon
